import Mathlib

/-!
Verification of the YouTube caption-selection / caching core of clipdrop
(`src/clipdrop/youtube.py`).

Strings are modelled as `List Char`.  Python's `str.lower` is modelled by
`Char.toLower` (the inputs of interest are ASCII), `str.strip` by removing
leading/trailing characters in the ASCII whitespace set, and Python string
comparison (`<` on `str`, used by `list.sort(key=...)`) by code-point
lexicographic order.  Python's stable `list.sort` is modelled by Mathlib's
`List.insertionSort`, which is stable for a total transitive relation.
-/

namespace Clipdrop

/-- Python `str.lower` on a character (ASCII). -/
def toLow (c : Char) : Char := c.toLower

/-- Python `str.lower` on a string. -/
def lower (s : List Char) : List Char := s.map toLow

/-- Characters removed by Python `str.strip()` (ASCII whitespace). -/
def isPySpace (c : Char) : Bool :=
  c = ' ' || c = '\t' || c = '\n' || c = '\r' || c = '\x0b' || c = '\x0c'

/-- Python `str.strip()`: drop leading and trailing whitespace. -/
def pyStrip (s : List Char) : List Char :=
  ((s.dropWhile isPySpace).reverse.dropWhile isPySpace).reverse

/-- Python `sub in s` substring test (used for `'(auto-generated)' in name.lower()`
and the stderr checks). -/
def hasSub (pat : List Char) : List Char → Bool
  | [] => pat.isEmpty
  | c :: cs => pat.isPrefixOf (c :: cs) || hasSub pat cs

/-- Code-point lexicographic `≤` on strings, the order used by Python string
comparison in `captions.sort(key=lambda x: x[0])`. -/
def lexLe : List Char → List Char → Bool
  | [], _ => true
  | _ :: _, [] => false
  | a :: as, b :: bs => if a = b then lexLe as bs else decide (a < b)

/-! ### The URL validator (`validate_youtube_url`)

The source matches one fixed regular expression with `re.match(..., re.IGNORECASE)`.
We embed a small backtracking matcher (fuelled, since `star` unfolds) and encode
that exact pattern as a syntax tree.  Literal characters are compared
case-insensitively; `$` matches at the end of the string or before a trailing
newline, as in Python without `re.MULTILINE`. -/

/-- Regular-expression syntax for the embedded patterns. -/
inductive RE where
  | eps : RE
  | lit : Char → RE
  | cls : (Char → Bool) → RE
  | seq : RE → RE → RE
  | alt : RE → RE → RE
  | star : RE → RE
  | dollar : RE

/-- Case-insensitive character comparison (`re.IGNORECASE`). -/
def lcEq (a b : Char) : Bool := a.toLower = b.toLower

/-- Backtracking matcher in continuation style.  `k` receives the remaining
input.  Alternatives and the greedy `star` explore both branches, so the result
is match-existence, exactly what `re.match(...) is not None` asks. -/
def reMatch : Nat → RE → List Char → (List Char → Bool) → Bool
  | 0, _, _, _ => false
  | _ + 1, .eps, s, k => k s
  | _ + 1, .lit c, s, k =>
    match s with
    | [] => false
    | x :: xs => lcEq c x && k xs
  | _ + 1, .cls p, s, k =>
    match s with
    | [] => false
    | x :: xs => p x && k xs
  | fuel + 1, .seq a b, s, k => reMatch fuel a s (fun s2 => reMatch fuel b s2 k)
  | fuel + 1, .alt a b, s, k => reMatch fuel a s k || reMatch fuel b s k
  | fuel + 1, .star r, s, k =>
    reMatch fuel r s (fun s2 => reMatch fuel (.star r) s2 k) || k s
  | _ + 1, .dollar, s, k => (decide (s = []) || decide (s = ['\n'])) && k s

/-- Sequence a list of regular expressions. -/
def reSeqs (l : List RE) : RE := l.foldr .seq .eps

/-- Case-insensitive literal word. -/
def reWord (s : String) : RE := reSeqs (s.toList.map .lit)

/-- First-to-last alternation of a list of branches. -/
def reAlts (l : List RE) : RE :=
  match l with
  | [] => .eps
  | [r] => r
  | r :: rs => .alt r (reAlts rs)

/-- Greedy optional group `(?:r)?`. -/
def reOpt (r : RE) : RE := .alt r .eps

/-- One-or-more `r+`. -/
def rePlus (r : RE) : RE := .seq r (.star r)

/-- Exactly `n` repetitions `r{n}`. -/
def reRep (n : Nat) (r : RE) : RE := reSeqs (List.replicate n r)

/-- Python `\w` plus hyphen, the video-id class `[\w\-]` (ASCII fragment). -/
def isWordDash (c : Char) : Bool := c.isAlphanum || c = '_' || c = '-'

/-- Python `\S` (ASCII fragment). -/
def isNonSpace (c : Char) : Bool := !c.isWhitespace

/-- Python `.` without `re.DOTALL`: any character except newline. -/
def isNotNl (c : Char) : Bool := c ≠ '\n'

/-- Subpattern `(?:\S+=\S+&)*` of the validator regex. -/
def reQParams : RE :=
  .star (reSeqs [rePlus (.cls isNonSpace), .lit '=', rePlus (.cls isNonSpace), .lit '&'])

/-- Subpattern `(?:www|m(?:usic)?)` of the validator regex. -/
def reSub : RE := .alt (reWord "www") (.seq (.lit 'm') (reOpt (reWord "usic")))

/-- Subpattern
`shorts\/|live\/|v\/|e(?:mbed)?\/|watch(?:\/|\?(?:\S+=\S+&)*v=)|oembed\?url=https?:\/\/(?:www|m(?:usic)?)\.youtube\.com\/watch\?(?:\S+=\S+&)*v=|attribution_link\?(?:\S+=\S+&)*u=(?:\/|%2F)watch(?:\?|%3F)v(?:=|%3D)`. -/
def rePathKinds : RE :=
  reAlts
    [ reWord "shorts/"
    , reWord "live/"
    , reWord "v/"
    , reSeqs [.lit 'e', reOpt (reWord "mbed"), .lit '/']
    , reSeqs [reWord "watch", .alt (.lit '/') (reSeqs [.lit '?', reQParams, reWord "v="])]
    , reSeqs [reWord "oembed?url=http", reOpt (.lit 's'), reWord "://", reSub,
        reWord ".youtube.com/watch?", reQParams, reWord "v="]
    , reSeqs [reWord "attribution_link?", reQParams, reWord "u=",
        .alt (.lit '/') (reWord "%2F"), reWord "watch",
        .alt (.lit '?') (reWord "%3F"), .lit 'v',
        .alt (.lit '=') (reWord "%3D")] ]

/-- The full validator pattern of `validate_youtube_url` (source line 36). -/
def ytPattern : RE :=
  reSeqs
    [ reOpt (reSeqs [reOpt (reSeqs [reWord "http", reOpt (.lit 's'), .lit ':']), reWord "//"])
    , .alt
        (reSeqs [ reOpt (.seq reSub (.lit '.'))
                , reWord "youtu"
                , .alt (reWord ".be") (reWord "be.com")
                , .lit '/'
                , reOpt rePathKinds ])
        (reWord "www.youtube-nocookie.com/embed/")
    , reRep 11 (.cls isWordDash)
    , reOpt (.seq (.cls (fun c => c = '?' || c = '&' || c = '#')) (.star (.cls isNotNl)))
    , .dollar ]

/-- Fuel bound comfortably above the deepest backtracking path of `ytPattern`
on an input of the given length. -/
def ytFuel (s : List Char) : Nat := 200 * (s.length + 2)

/-- Embedding of `validate_youtube_url` (source lines 12-39): empty input is
rejected, otherwise the anchored pattern is matched case-insensitively. -/
def validate_youtube_url (url : List Char) : Bool :=
  if url = [] then false
  else reMatch (ytFuel url) ytPattern url (fun _ => true)

/-! ### The id extractor (`extract_video_id`)

The source tries six `re.search` patterns in order.  Each pattern is a
case-insensitive literal context followed by the 11-character id class (and,
for some patterns, a boundary `[?&#]` / `[&#]` / `$`); pattern 6 additionally
has a greedy `.*` gap.  All alternations inside these patterns have disjoint
first characters, so each is compiled to a deterministic scanning function,
and `re.search`'s leftmost-position rule becomes `searchWith`. -/

/-- Video-id characters `[a-zA-Z0-9_\-]` (ASCII; `re.IGNORECASE` leaves the
class unchanged). -/
def isIdChar (c : Char) : Bool := c.isAlphanum || c = '_' || c = '-'

/-- Take exactly `n` characters satisfying `p`; return them and the rest. -/
def takeN : Nat → (Char → Bool) → List Char → Option (List Char × List Char)
  | 0, _, s => some ([], s)
  | _ + 1, _, [] => none
  | n + 1, p, c :: cs =>
    if p c then (takeN n p cs).map (fun t => (c :: t.1, t.2)) else none

/-- Match a case-insensitive literal at the head of the input, returning the
rest. -/
def stripLit : List Char → List Char → Option (List Char)
  | [], s => some s
  | _ :: _, [] => none
  | l :: ls, c :: cs => if lcEq l c then stripLit ls cs else none

/-- Python `$` without `re.MULTILINE`: end of string or before one trailing
newline. -/
def atEnd (s : List Char) : Bool := decide (s = []) || decide (s = ['\n'])

/-- Boundary `(?:[&#]|$)` of extractor pattern 2. -/
def bAmpHash (s : List Char) : Bool :=
  atEnd s || (match s with | c :: _ => c = '&' || c = '#' | [] => false)

/-- Boundary `(?:[?&#]|$)` of extractor patterns 3, 4 and 5. -/
def bQAmpHash (s : List Char) : Bool :=
  atEnd s || (match s with | c :: _ => c = '?' || c = '&' || c = '#' | [] => false)

/-- Leftmost-position search: try `attempt` at every suffix, first hit wins,
exactly `re.search`'s strategy. -/
def searchWith (attempt : List Char → Option (List Char)) : List Char → Option (List Char)
  | [] => attempt []
  | c :: cs =>
    match attempt (c :: cs) with
    | some r => some r
    | none => searchWith attempt cs

/-- Pattern 1 at a position: `youtu\.be\/([a-zA-Z0-9_\-]{11})` (no boundary). -/
def p1At (s : List Char) : Option (List Char) :=
  (stripLit "youtu.be/".toList s).bind fun r => (takeN 11 isIdChar r).map (·.1)

/-- Pattern 2 at a position: `[?&]v=([a-zA-Z0-9_\-]{11})(?:[&#]|$)`. -/
def p2At (s : List Char) : Option (List Char) :=
  match s with
  | [] => none
  | c :: cs =>
    if c = '?' || c = '&' then
      (stripLit "v=".toList cs).bind fun r =>
        (takeN 11 isIdChar r).bind fun t =>
          if bAmpHash t.2 then some t.1 else none
    else none

/-- First-match alternation of two deterministic branches (their leading
literals have distinct first characters, so regex order is preserved). -/
def orTry (a b : Option (List Char)) : Option (List Char) :=
  match a with
  | some r => some r
  | none => b

/-- Pattern 3 at a position: `(?:embed|v)\/([a-zA-Z0-9_\-]{11})(?:[?&#]|$)`. -/
def p3At (s : List Char) : Option (List Char) :=
  (orTry (stripLit "embed/".toList s) (stripLit "v/".toList s)).bind fun r =>
    (takeN 11 isIdChar r).bind fun t =>
      if bQAmpHash t.2 then some t.1 else none

/-- Pattern 4 at a position: `(?:shorts|live)\/([a-zA-Z0-9_\-]{11})(?:[?&#]|$)`. -/
def p4At (s : List Char) : Option (List Char) :=
  (orTry (stripLit "shorts/".toList s) (stripLit "live/".toList s)).bind fun r =>
    (takeN 11 isIdChar r).bind fun t =>
      if bQAmpHash t.2 then some t.1 else none

/-- Pattern 5 at a position:
`youtube-nocookie\.com\/embed\/([a-zA-Z0-9_\-]{11})(?:[?&#]|$)`. -/
def p5At (s : List Char) : Option (List Char) :=
  (stripLit "youtube-nocookie.com/embed/".toList s).bind fun r =>
    (takeN 11 isIdChar r).bind fun t =>
      if bQAmpHash t.2 then some t.1 else none

/-- Tail of pattern 6 at a position:
`u=(?:\/|%2F)watch(?:\?|%3F)v(?:=|%3D)([a-zA-Z0-9_\-]{11})`. -/
def p6Tail (s : List Char) : Option (List Char) :=
  (stripLit "u=".toList s).bind fun r1 =>
    (orTry (stripLit "/".toList r1) (stripLit "%2F".toList r1)).bind fun r2 =>
      (stripLit "watch".toList r2).bind fun r3 =>
        (orTry (stripLit "?".toList r3) (stripLit "%3F".toList r3)).bind fun r4 =>
          (stripLit "v".toList r4).bind fun r5 =>
            (orTry (stripLit "=".toList r5) (stripLit "%3D".toList r5)).bind fun r6 =>
              (takeN 11 isIdChar r6).map (·.1)

/-- Greedy `.*` before `p6Tail`: prefer the latest tail start reachable through
a newline-free gap, as backtracking from a maximal `.*` does. -/
def p6FindLast : List Char → Option (List Char)
  | [] => none
  | c :: cs =>
    match (if c = '\n' then none else p6FindLast cs) with
    | some r => some r
    | none => p6Tail (c :: cs)

/-- Pattern 6 at a position:
`attribution_link\?.*u=(?:\/|%2F)watch(?:\?|%3F)v(?:=|%3D)([a-zA-Z0-9_\-]{11})`. -/
def p6At (s : List Char) : Option (List Char) :=
  (stripLit "attribution_link?".toList s).bind p6FindLast

/-- The six searches in source order (source lines 58-88). -/
def extractCore (u : List Char) : Option (List Char) :=
  match searchWith p1At u with
  | some v => some v
  | none =>
    match searchWith p2At u with
    | some v => some v
    | none =>
      match searchWith p3At u with
      | some v => some v
      | none =>
        match searchWith p4At u with
        | some v => some v
        | none =>
          match searchWith p5At u with
          | some v => some v
          | none => searchWith p6At u

/-- Embedding of `extract_video_id` (source lines 42-88): reject empty input,
strip surrounding whitespace, then try the six patterns in order. -/
def extract_video_id (url : List Char) : Option (List Char) :=
  if url = [] then none
  else extractCore (pyStrip url)

/-! ### Caption tracks and the selector (`select_caption_track`)

A caption is the Python tuple `(lang_code, name, is_auto_generated)`. -/

/-- A caption track `(language code, display name, is auto-generated)`. -/
abbrev Caption := List Char × List Char × Bool

/-- Base language code: `code.split('-')[0]`. -/
def baseOf (s : List Char) : List Char := s.takeWhile (fun c => c ≠ '-')

/-- The loop `for caption in captions: if not caption[2]: return caption`. -/
def firstManual : List Caption → Option Caption
  | [] => none
  | c :: cs => if c.2.2 = false then some c else firstManual cs

/-- Score of one caption against the already-normalized preference `pl` with
base `plBase` (source lines 252-274): 100 exact, 50 base match, 1 otherwise,
plus 10 for a manual track. -/
def pyScore (pl plBase : List Char) (c : Caption) : Nat :=
  (if lower c.1 = pl then 100
   else if baseOf (lower c.1) = plBase then 50
   else 1)
  + (if c.2.2 = false then 10 else 0)

/-- Descending-by-score relation used for the stable sort
`scored_captions.sort(key=lambda x: x[0], reverse=True)`. -/
def scoreGe (x y : Nat × Caption) : Prop := y.1 ≤ x.1

instance : DecidableRel scoreGe := fun x y => Nat.decLe y.1 x.1

/-- Embedding of `select_caption_track` (source lines 210-280).  `not
preferred_lang` is true for both `None` and the empty string; otherwise the
preference is lowercased and stripped, every track is scored, and the head of
the stable descending sort is returned. -/
def select_caption_track (captions : List Caption) (preferred_lang : Option (List Char)) :
    Option Caption :=
  if captions = [] then none
  else if preferred_lang.getD [] = [] then
    match firstManual captions with
    | some c => some c
    | none => captions.head?
  else
    let pl := pyStrip (lower (preferred_lang.getD []))
    let plBase := baseOf pl
    let scored := captions.map (fun c => (pyScore pl plBase c, c))
    match (List.insertionSort scoreGe scored).head? with
    | some p => some p.2
    | none => none

/-! ### The caption-listing adapter (`list_captions`)

The subprocess and the JSON decoder are external; their behaviour is modelled
by the data the code inspects: the run either times out or yields an exit
code, stderr text and stdout lines, and each of the two stdout lines is empty,
the literal `null`, a decoded object (language → format list), or
undecodable (`json.JSONDecodeError`).  A format entry is a JSON object whose
optional `name` field the code reads with `.get('name', lang_code)`; a
language's formats value that is not a list fails the `isinstance` check. -/

/-- One entry of a subtitle-format list: its optional `name` field. -/
structure FmtEntry where
  name : Option (List Char)
deriving DecidableEq

/-- The formats value for one language: a JSON list or something else. -/
inductive Formats where
  | notList : Formats
  | list : List FmtEntry → Formats
deriving DecidableEq

/-- A decoded subtitles map, in JSON key order (keys are unique in JSON). -/
abbrev SubsMap := List (List Char × Formats)

/-- One stdout line as the code inspects it. -/
inductive JsonLine where
  | emptyStr : JsonLine
  | nullLit : JsonLine
  | dict : SubsMap → JsonLine
  | malformed : JsonLine
deriving DecidableEq

/-- A subprocess run: timeout or completion. -/
inductive ToolOutcome where
  | timeout : ToolOutcome
  | ran : Int → List JsonLine → List Char → ToolOutcome
deriving DecidableEq

/-- The typed error kinds of `clipdrop.exceptions` used by this module. -/
inductive YTErr where
  | urlError : YTErr
  | ytdlpNotFound : YTErr
  | noCaptions : YTErr
  | youTubeError : YTErr
deriving DecidableEq

/-- `json.loads(line) if line and line != 'null' else {}`; `none` means the
decoder raised `json.JSONDecodeError`. -/
def loadSubsLine : JsonLine → Option SubsMap
  | .emptyStr => some []
  | .nullLit => some []
  | .dict m => some m
  | .malformed => none

/-- The pair `(manual_subs, auto_subs)` actually used: if either of the two
loads raises, the `except` block resets both to `{}` (source lines 163-168). -/
def effectiveSubs (lines : List JsonLine) : SubsMap × SubsMap :=
  match loadSubsLine (lines.getD 0 .emptyStr), loadSubsLine (lines.getD 1 .emptyStr) with
  | some a, some b => (a, b)
  | _, _ => ([], [])

/-- Display name of a manual track (source lines 173-178). -/
def manualName (lang : List Char) : Formats → List Char
  | .list (e :: _) => e.name.getD lang
  | .list [] => lang
  | .notList => lang

/-- Display name of an auto-generated track (source lines 182-191): append
` (auto-generated)` unless `(auto-generated)` already occurs in the lowercased
name. -/
def autoName (lang : List Char) : Formats → List Char
  | .list (e :: _) =>
    let n := e.name.getD lang
    if hasSub "(auto-generated)".toList (lower n) then n
    else n ++ " (auto-generated)".toList
  | .list [] => lang ++ " (auto-generated)".toList
  | .notList => lang ++ " (auto-generated)".toList

/-- Keys of a subtitles map (`lang_code in manual_subs` is key membership). -/
def mapKeys (m : SubsMap) : List (List Char) := m.map (·.1)

/-- The two `for` loops of source lines 170-192: one track per manual
language, then one per automatic language not present in the manual map. -/
def mergeCaptions (manual auto : SubsMap) : List Caption :=
  manual.map (fun p => (p.1, manualName p.1 p.2, false))
    ++ auto.filterMap (fun p =>
        if p.1 ∈ mapKeys manual then none
        else some (p.1, autoName p.1 p.2, true))

/-- Ascending-by-language-code relation of `captions.sort(key=lambda x: x[0])`. -/
def capLe (x y : Caption) : Prop := lexLe x.1 y.1 = true

instance : DecidableRel capLe := fun x y => instDecidableEqBool (lexLe x.1 y.1) true

/-- Embedding of `list_captions` (source lines 108-207). -/
def list_captions (url : List Char) (installed : Bool) (outcome : ToolOutcome) :
    Except YTErr (List Caption) :=
  if validate_youtube_url url = false then .error .urlError
  else if installed = false then .error .ytdlpNotFound
  else
    match outcome with
    | .timeout => .error .youTubeError
    | .ran rc lines _stderr =>
      if rc ≠ 0 then .error .youTubeError
      else if lines.length < 2 then .error .noCaptions
      else
        let subs := effectiveSubs lines
        let captions := mergeCaptions subs.1 subs.2
        if captions = [] then .error .noCaptions
        else .ok (List.insertionSort capLe captions)

/-! ### Video info and its cache (`get_video_info`)

The stored `info.json` is consulted only for parse success and its
`cached_at` field, so a cache read is modelled by exactly those observations.
`datetime.fromisoformat` succeeds only on a timestamp string; timestamps are
modelled as epoch seconds, and `(datetime.now() - cached_time).days` is
`Int.fdiv` of the difference by 86400 (Python `timedelta.days` floors).
A stored `cached_at` that is not a string raises an uncaught `TypeError` in
Python and is outside this model. -/

/-- What `get_video_info` observes about the stored `info.json`. -/
inductive CacheRead where
  | absent : CacheRead
  | unparsable : CacheRead
  | docNoStamp : CacheRead
  | docBadStamp : CacheRead
  | docStamp : Int → CacheRead
deriving DecidableEq

/-- The cache test of source lines 479-490: use the cached document iff it
parses, has a `cached_at` timestamp, and `(now - cached_time).days < 7`. -/
def cacheFresh (read : CacheRead) (now : Int) : Bool :=
  match read with
  | .docStamp t => decide (Int.fdiv (now - t) 86400 < 7)
  | _ => false

/-- A JSON value stored in the info document.  A string is either a valid ISO
timestamp (`time t`, in epoch seconds) or not (`str`); `other` stands for any
other decoded JSON value (list, object, float), stored as-is. -/
inductive JVal where
  | null : JVal
  | str : List Char → JVal
  | int : Int → JVal
  | time : Int → JVal
  | other : JVal
deriving DecidableEq

/-- The info document: the dict literal of source lines 526-537, in key order. -/
abbrev VDoc := List (List Char × JVal)

/-- One stdout line of the info query: the literal `null`, a decoded JSON
value, or undecodable text. -/
inductive OutLine where
  | nullLit : OutLine
  | val : JVal → OutLine
  | malformed : OutLine
deriving DecidableEq

/-- The info subprocess run. -/
inductive InfoOutcome where
  | timeout : InfoOutcome
  | ran : Int → List OutLine → List Char → InfoOutcome
deriving DecidableEq

/-- `json.loads(line) if line != 'null' else dflt`; `none` when the decoder
raises. -/
def loadField (l : OutLine) (dflt : JVal) : Option JVal :=
  match l with
  | .nullLit => some dflt
  | .val v => some v
  | .malformed => none

/-- The `video_info` dict of source lines 526-537, built from the first eight
stdout lines with the null-sentinel defaults; `none` when any needed line is
undecodable (the `JSONDecodeError` handler then raises `YouTubeError`). -/
def buildInfo (vid url : List Char) (now : Int) (lines : List OutLine) : Option VDoc :=
  match loadField (lines.getD 0 .malformed) (.str "Unknown Title".toList),
      loadField (lines.getD 1 .malformed) (.str vid),
      loadField (lines.getD 2 .malformed) (.str "Unknown".toList),
      loadField (lines.getD 3 .malformed) (.int 0),
      loadField (lines.getD 4 .malformed) .null,
      loadField (lines.getD 5 .malformed) (.str [] ),
      loadField (lines.getD 6 .malformed) (.int 0),
      loadField (lines.getD 7 .malformed) (.int 0) with
  | some t, some i, some u, some d, some ud, some de, some vc, some lc =>
    some [("title".toList, t), ("id".toList, i), ("uploader".toList, u),
      ("duration".toList, d), ("upload_date".toList, ud), ("description".toList, de),
      ("view_count".toList, vc), ("like_count".toList, lc),
      ("url".toList, .str url), ("cached_at".toList, .time now)]
  | _, _, _, _, _, _, _, _ => none

/-- Result of `get_video_info`: the cached document returned as-is, a freshly
fetched document (which the code also writes to `info.json` before
returning), or a typed error. -/
inductive InfoResult where
  | fromCache : InfoResult
  | fetched : VDoc → InfoResult
  | failed : YTErr → InfoResult
deriving DecidableEq

/-- Embedding of `get_video_info` (source lines 441-552). -/
def get_video_info (url : List Char) (installed : Bool) (read : CacheRead) (now : Int)
    (outcome : InfoOutcome) : InfoResult :=
  if validate_youtube_url url = false then .failed .urlError
  else
    match extract_video_id url with
    | none => .failed .urlError
    | some vid =>
      if installed = false then .failed .ytdlpNotFound
      else if cacheFresh read now then .fromCache
      else
        match outcome with
        | .timeout => .failed .youTubeError
        | .ran rc lines _stderr =>
          if rc ≠ 0 then .failed .youTubeError
          else if lines.length < 8 then .failed .youTubeError
          else
            match buildInfo vid url now lines with
            | some doc => .fetched doc
            | none => .failed .youTubeError

/-! ### VTT download (`download_vtt`)

The VTT cache file's presence, and the files present after a download run,
are the only filesystem observations the code makes. -/

/-- A download run: timeout, or exit code, stderr, and whether the canonical
and base-language VTT files exist afterwards. -/
inductive DlOutcome where
  | timeout : DlOutcome
  | ran : Int → List Char → Bool → Bool → DlOutcome
deriving DecidableEq

/-- Canonical cache path `<base>/<video_id>/<video_id>.<lang>.vtt`. -/
def vttPath (base vid lang : List Char) : List Char :=
  base ++ "/".toList ++ vid ++ "/".toList ++ vid ++ ".".toList ++ lang ++ ".vtt".toList

/-- Embedding of `download_vtt` (source lines 339-438).  `cached` is the
`vtt_path.exists()` test before any download; on a non-cached run, `created`
and `altCreated` are the post-run existence tests of the canonical and
base-language files (the latter is renamed to the canonical path). -/
def download_vtt (url lang base : List Char) (installed : Bool) (cached : Bool)
    (out : DlOutcome) : Except YTErr (List Char) :=
  if validate_youtube_url url = false then .error .urlError
  else
    match extract_video_id url with
    | none => .error .urlError
    | some vid =>
      if installed = false then .error .ytdlpNotFound
      else if cached then .ok (vttPath base vid lang)
      else
        match out with
        | .timeout => .error .youTubeError
        | .ran rc stderr created altCreated =>
          if rc ≠ 0 then
            let msg := if stderr = [] then "Unknown error".toList else pyStrip stderr
            if hasSub "no subtitles".toList (lower msg)
                || hasSub "subtitle".toList (lower msg) then .error .noCaptions
            else .error .youTubeError
          else if created then .ok (vttPath base vid lang)
          else if altCreated then .ok (vttPath base vid lang)
          else .error .noCaptions

/-! ### Specification-side definitions

These definitions follow the wording of the spec sentences under scrutiny
(not the code) and are compared with the embedded functions. -/

/-- Track score as worded in the spec: 100 for an exact (lowercased) match
with the lowercased, trimmed preference, else 50 for a base-code match, else
1; plus 10 if the track is not auto-generated. -/
def specScore (pref : List Char) (c : Caption) : Nat :=
  (if lower c.1 = pyStrip (lower pref) then 100
   else if baseOf (lower c.1) = baseOf (pyStrip (lower pref)) then 50
   else 1)
  + (if c.2.2 = false then 10 else 0)

/-- The track with the highest score, ties broken by original listing order
(the first track attaining the maximum). -/
def specBest (f : Caption → Nat) : List Caption → Option Caption
  | [] => none
  | c :: cs =>
    match specBest f cs with
    | none => some c
    | some d => if f c < f d then some d else some c

/-- Spec-side no-preference rule: the first non-auto-generated track in
listing order, or the first track overall if no manual track exists. -/
def specNoPref (captions : List Caption) : Option Caption :=
  match captions.find? (fun c => !c.2.2) with
  | some c => some c
  | none => captions.head?

/-- Staleness rule as worded in claim C5: stale iff the stored document is
unparsable or its `cached_at` is more than 7 days before now. -/
def specStaleClaim : CacheRead → Int → Bool
  | .unparsable, _ => true
  | .docStamp t, now => decide (now - t > 7 * 86400)
  | _, _ => false

/-! ### Helper lemmas: the stable descending sort picks the first maximum -/

/-- First pair attaining the maximal first component. -/
def argmaxFirst : List (Nat × Caption) → Option (Nat × Caption)
  | [] => none
  | x :: xs =>
    match argmaxFirst xs with
    | none => some x
    | some y => if x.1 < y.1 then some y else some x

theorem head_insertionSort_scoreGe (l : List (Nat × Caption)) :
    (List.insertionSort scoreGe l).head? = argmaxFirst l := by
  induction l with
  | nil => rfl
  | cons a l ih =>
    show (List.orderedInsert scoreGe a (List.insertionSort scoreGe l)).head? = _
    cases h : List.insertionSort scoreGe l with
    | nil =>
      have hl : l = [] := by
        have hlen := List.length_insertionSort scoreGe l
        rw [h] at hlen
        exact List.length_eq_zero.mp hlen.symm
      subst hl
      rfl
    | cons b bs =>
      have hb : argmaxFirst l = some b := by rw [← ih, h]; rfl
      simp only [argmaxFirst, hb, List.orderedInsert]
      by_cases hab : scoreGe a b
      · rw [if_pos hab, if_neg (Nat.not_lt.mpr hab)]
        rfl
      · rw [if_neg hab, if_pos (Nat.lt_of_not_le hab)]
        rfl

theorem argmaxFirst_map_score (f : Caption → Nat) (l : List Caption) :
    argmaxFirst (l.map (fun c => (f c, c))) = (specBest f l).map (fun c => (f c, c)) := by
  induction l with
  | nil => rfl
  | cons c cs ih =>
    simp only [List.map_cons, argmaxFirst, specBest, ih]
    cases h : specBest f cs with
    | none => rfl
    | some d =>
      simp only [Option.map_some']
      by_cases hc : f c < f d
      · rw [if_pos hc, if_pos hc]
        rfl
      · rw [if_neg hc, if_neg hc]
        rfl

theorem specBest_cons_isSome (f : Caption → Nat) (c : Caption) (cs : List Caption) :
    (specBest f (c :: cs)).isSome = true := by
  simp only [specBest]
  cases specBest f cs with
  | none => rfl
  | some d =>
    show (if f c < f d then some d else some c).isSome = true
    by_cases hc : f c < f d
    · rw [if_pos hc]; rfl
    · rw [if_neg hc]; rfl

theorem firstManual_eq_find (l : List Caption) :
    firstManual l = l.find? (fun c => !c.2.2) := by
  induction l with
  | nil => rfl
  | cons c cs ih =>
    simp only [firstManual, List.find?]
    cases hb : c.2.2 with
    | false => simp [hb]
    | true => simp [hb, ih]

/-! ### Claims C1 and C9: the caption selector -/

/-- Claim C1: for every non-empty listing and non-empty preferred language,
`select_caption_track` returns the track with the highest score (100 exact /
50 base / 1 unrelated, +10 for manual, against the lowercased trimmed
preference), ties broken by original listing order, and the result is never
`none`. -/
theorem C1_selector_highest_score (captions : List Caption) (pl : List Char)
    (hc : captions ≠ []) (hp : pl ≠ []) :
    select_caption_track captions (some pl) = specBest (specScore pl) captions ∧
    (select_caption_track captions (some pl)).isSome = true := by
  have key : select_caption_track captions (some pl)
      = Option.map (·.2) ((specBest (specScore pl) captions).map (fun c => (specScore pl c, c))) := by
    simp only [select_caption_track, Option.getD_some, if_neg hc, if_neg hp]
    rw [show (fun c => (pyScore (pyStrip (lower pl)) (baseOf (pyStrip (lower pl))) c, c))
        = (fun c : Caption => (specScore pl c, c)) from rfl]
    rw [head_insertionSort_scoreGe, argmaxFirst_map_score]
    cases specBest (specScore pl) captions <;> rfl
  cases captions with
  | nil => exact absurd rfl hc
  | cons c0 cs =>
    cases hd : specBest (specScore pl) (c0 :: cs) with
    | none =>
      have := specBest_cons_isSome (specScore pl) c0 cs
      rw [hd] at this
      exact absurd this (by simp)
    | some d =>
      rw [hd] at key
      exact ⟨key.trans (by simp), by rw [key]; rfl⟩

/-- Claim C9: an empty-string preference behaves exactly like no preference,
returning the first non-auto-generated track in listing order, or the first
track overall if no manual track exists. -/
theorem C9_empty_pref_is_no_pref (captions : List Caption) :
    select_caption_track captions (some []) = select_caption_track captions none ∧
    (captions ≠ [] → select_caption_track captions (some []) = specNoPref captions) := by
  constructor
  · rfl
  · intro hc
    simp only [select_caption_track, Option.getD_some, if_neg hc, if_pos rfl]
    rw [firstManual_eq_find]
    rfl

/-- Concrete caption listing used by witnesses (the spec's own example). -/
def capsW : List Caption :=
  [("en".toList, "English".toList, false),
   ("es".toList, "Spanish".toList, false),
   ("en".toList, "English (auto-generated)".toList, true)]

/-- Witness for C1 at the spec's example listing with preference `en`. -/
theorem C1_witness :
    select_caption_track capsW (some "en".toList) = specBest (specScore "en".toList) capsW ∧
    (select_caption_track capsW (some "en".toList)).isSome = true :=
  C1_selector_highest_score capsW "en".toList (by decide) (by decide)

/-- Witness for C9 at the spec's example listing. -/
theorem C9_witness :
    select_caption_track capsW (some []) = select_caption_track capsW none ∧
    select_caption_track capsW (some []) = specNoPref capsW :=
  ⟨(C9_empty_pref_is_no_pref capsW).1, (C9_empty_pref_is_no_pref capsW).2 (by decide)⟩

/-! ### Claim C2: validator and extractor disagree

The validator's path-kind group of the regex is optional (the trailing `?`
after the big path alternation), so a bare `youtube.com/<11 id chars>` is
accepted, while none of the six extractor patterns can find an id in it.
This contradicts the agreement property asserted by the spec and by the
validator's own docstring, which lists only the shaped URLs. -/

/-- Claim C2 fails on the code: `youtube.com/abcdefghijk` is accepted by
`validate_youtube_url` but `extract_video_id` returns `none` on it. -/
theorem C2_validator_extractor_disagree :
    validate_youtube_url "youtube.com/abcdefghijk".toList = true ∧
    extract_video_id "youtube.com/abcdefghijk".toList = none := by
  constructor
  · decide
  · decide

/-! ### Claim C4: the listing merge

Total and transitive order lemmas for code-point lexicographic `≤`, so that
Mathlib's stability and sortedness facts about `insertionSort` apply. -/

theorem lexLe_total (a b : List Char) : lexLe a b = true ∨ lexLe b a = true := by
  induction a generalizing b with
  | nil => exact Or.inl rfl
  | cons x xs ih =>
    cases b with
    | nil => exact Or.inr rfl
    | cons y ys =>
      by_cases hxy : x = y
      · subst hxy
        simp only [lexLe, if_pos rfl]
        exact ih ys
      · rcases lt_trichotomy x y with h | h | h
        · exact Or.inl (by simp [lexLe, hxy, h])
        · exact absurd h hxy
        · exact Or.inr (by simp [lexLe, Ne.symm hxy, h])

theorem lexLe_trans {a b c : List Char} (h1 : lexLe a b = true) (h2 : lexLe b c = true) :
    lexLe a c = true := by
  induction a generalizing b c with
  | nil => rfl
  | cons x xs ih =>
    cases b with
    | nil => exact absurd h1 (by simp [lexLe])
    | cons y ys =>
      cases c with
      | nil => exact absurd h2 (by simp [lexLe])
      | cons z zs =>
        by_cases hxy : x = y
        · subst hxy
          by_cases hyz : x = z
          · subst hyz
            simp only [lexLe, if_pos rfl] at h1 h2 ⊢
            exact ih h1 h2
          · simp only [lexLe, if_pos rfl] at h1
            simp only [lexLe, if_neg hyz] at h2 ⊢
            exact h2
        · by_cases hyz : y = z
          · subst hyz
            simp only [lexLe, if_neg hxy] at h1 ⊢
            exact h1
          · simp only [lexLe, if_neg hxy] at h1
            simp only [lexLe, if_neg hyz] at h2
            have hx : x < y := of_decide_eq_true h1
            have hy : y < z := of_decide_eq_true h2
            have hxz : x < z := lt_trans hx hy
            simp [lexLe, ne_of_lt hxz, hxz]

instance : IsTotal Caption capLe := ⟨fun x y => lexLe_total x.1 y.1⟩

instance : IsTrans Caption capLe := ⟨fun _ _ _ => lexLe_trans⟩

/-- A concrete valid URL used by witnesses throughout. -/
def url0 : List Char := "https://youtu.be/dQw4w9WgXcQ".toList

/-- The merge is one mapped track per manual pair plus one mapped track per
automatic pair whose language is not a manual key. -/
theorem mergeCaptions_eq (manual auto : SubsMap) :
    mergeCaptions manual auto
      = (manual.map fun p => (p.1, manualName p.1 p.2, false))
        ++ ((auto.filter fun p => decide (p.1 ∉ mapKeys manual)).map
            fun p => (p.1, autoName p.1 p.2, true)) := by
  unfold mergeCaptions
  congr 1
  induction auto with
  | nil => rfl
  | cons p ps ih =>
    by_cases h : p.1 ∈ mapKeys manual <;>
      simp [List.filterMap_cons, List.filter_cons, h, ih]

/-- Claim C4: on a successful listing, the result holds one manual track per
manual language (flag `false`), one auto track per automatic language not in
the manual map (flag `true`, suffixed name), is sorted ascending by language
code, and contains no auto entry whose language is a manual key. -/
theorem C4_listing_merge (url : List Char) (manual auto : SubsMap) (err : List Char)
    (hv : validate_youtube_url url = true)
    (hne : mergeCaptions manual auto ≠ []) :
    list_captions url true (.ran 0 [.dict manual, .dict auto] err)
      = .ok (List.insertionSort capLe (mergeCaptions manual auto)) ∧
    (List.insertionSort capLe (mergeCaptions manual auto)).Perm
      ((manual.map fun p => (p.1, manualName p.1 p.2, false))
        ++ ((auto.filter fun p => decide (p.1 ∉ mapKeys manual)).map
            fun p => (p.1, autoName p.1 p.2, true))) ∧
    List.Sorted capLe (List.insertionSort capLe (mergeCaptions manual auto)) ∧
    (∀ l n, (l, n, true) ∈ List.insertionSort capLe (mergeCaptions manual auto) →
      l ∉ mapKeys manual) := by
  refine ⟨?_, ?_, List.sorted_insertionSort capLe _, ?_⟩
  · simp only [list_captions, hv, effectiveSubs, loadSubsLine, if_neg hne]
    norm_num
    intro h
    exact absurd h hne
  · rw [← mergeCaptions_eq]
    exact List.perm_insertionSort capLe _
  · intro l n hmem
    rw [List.mem_insertionSort, mergeCaptions_eq] at hmem
    rcases List.mem_append.mp hmem with h | h
    · obtain ⟨p, _, he⟩ := List.mem_map.mp h
      simp [Prod.ext_iff] at he
    · obtain ⟨p, hp, he⟩ := List.mem_map.mp h
      have hk := (List.mem_filter.mp hp).2
      simp only [Prod.ext_iff] at he
      rw [← he.1]
      exact of_decide_eq_true hk

/-- Concrete manual map for the C4 witness (the spec's merge example). -/
def manW : SubsMap := [("en".toList, Formats.list [⟨some "English".toList⟩])]

/-- Concrete automatic map for the C4 witness. -/
def autoW : SubsMap :=
  [("en".toList, Formats.list [⟨some "English".toList⟩]),
   ("fr".toList, Formats.list [⟨some "French".toList⟩])]

/-- Witness for C4: the merge of the spec's example maps. -/
theorem C4_witness :
    list_captions url0 true (.ran 0 [.dict manW, .dict autoW] [])
      = .ok (List.insertionSort capLe (mergeCaptions manW autoW)) :=
  (C4_listing_merge url0 manW autoW [] (by decide) (by decide)).1

/-! ### Claim C3: the error taxonomy of `list_captions`

The code catches `json.JSONDecodeError` and resets both maps to `{}`, so
undecodable (malformed) tool output ends in `NoCaptionsError`, not
`YouTubeError`, refuting the claim's "malformed output → YouTubeError". -/

theorem ytErr_nc_ne_yt : YTErr.noCaptions ≠ YTErr.youTubeError := by decide

/-- Evaluation of `list_captions` on a timeout. -/
theorem list_captions_timeout (url : List Char) (hv : validate_youtube_url url = true) :
    list_captions url true .timeout = .error .youTubeError := by
  simp [list_captions, hv]

/-- Evaluation of `list_captions` on a non-zero exit. -/
theorem list_captions_nonzero (url : List Char) (rc : Int) (lines : List JsonLine)
    (err : List Char) (hrc : rc ≠ 0) (hv : validate_youtube_url url = true) :
    list_captions url true (.ran rc lines err) = .error .youTubeError := by
  simp [list_captions, hv, hrc]

/-- Evaluation of `list_captions` on a zero exit. -/
theorem list_captions_zero (url : List Char) (lines : List JsonLine) (err : List Char)
    (hv : validate_youtube_url url = true) :
    list_captions url true (.ran 0 lines err)
      = if lines.length < 2 then .error .noCaptions
        else if mergeCaptions (effectiveSubs lines).1 (effectiveSubs lines).2 = []
          then .error .noCaptions
          else .ok (List.insertionSort capLe
            (mergeCaptions (effectiveSubs lines).1 (effectiveSubs lines).2)) := by
  simp [list_captions, hv]

/-- Counterexample to C3: with a zero exit code and two undecodable stdout
lines, `list_captions` raises `NoCaptionsError`, not `YouTubeError`. -/
theorem C3_counterexample :
    list_captions url0 true (.ran 0 [.malformed, .malformed] [])
        = .error .noCaptions ∧
    (Except.error YTErr.noCaptions : Except YTErr (List Caption))
        ≠ .error .youTubeError := by
  refine ⟨by rfl, fun h => ?_⟩
  exact absurd (Except.error.inj h) ytErr_nc_ne_yt

/-- Claim C3 as amended: with a valid URL and the tool installed,
`list_captions` fails with `YouTubeError` exactly on timeout or non-zero
exit; undecodable JSON is treated as a pair of empty maps, so it (like fewer
than two output lines or a genuinely empty combined result) yields
`NoCaptionsError`, and `NoCaptionsError` occurs exactly in those cases. -/
theorem C3_amended (url : List Char) (outcome : ToolOutcome)
    (hv : validate_youtube_url url = true) :
    (list_captions url true outcome = .error .youTubeError ↔
      (outcome = .timeout ∨ ∃ rc lines err, outcome = .ran rc lines err ∧ rc ≠ 0)) ∧
    (∀ rc lines err, outcome = .ran rc lines err → rc = 0 →
      (list_captions url true outcome = .error .noCaptions ↔
        lines.length < 2 ∨
          mergeCaptions (effectiveSubs lines).1 (effectiveSubs lines).2 = [])) := by
  cases outcome with
  | timeout =>
    refine ⟨?_, fun rc lines err h => by cases h⟩
    rw [list_captions_timeout url hv]
    simp
  | ran rc lines err =>
    by_cases hrc : rc = 0
    · subst hrc
      constructor
      · rw [list_captions_zero url lines err hv]
        constructor
        · intro h
          exfalso
          by_cases hlen : lines.length < 2
          · rw [if_pos hlen] at h
            exact absurd (Except.error.inj h) ytErr_nc_ne_yt
          · rw [if_neg hlen] at h
            by_cases hm : mergeCaptions (effectiveSubs lines).1 (effectiveSubs lines).2 = []
            · rw [if_pos hm] at h
              exact absurd (Except.error.inj h) ytErr_nc_ne_yt
            · rw [if_neg hm] at h
              cases h
        · rintro (h | ⟨rc2, lines2, err2, heq, hne⟩)
          · cases h
          · injection heq with h1 _ _
            exact absurd h1.symm hne
      · intro rc2 lines2 err2 heq hz
        injection heq with h1 h2 h3
        subst h2
        rw [list_captions_zero url lines err hv]
        by_cases hlen : lines.length < 2
        · rw [if_pos hlen]
          simp [hlen]
        · rw [if_neg hlen]
          by_cases hm : mergeCaptions (effectiveSubs lines).1 (effectiveSubs lines).2 = []
          · rw [if_pos hm]
            simp [hm]
          · rw [if_neg hm]
            constructor
            · intro h
              cases h
            · rintro (h | h)
              · exact absurd h hlen
              · exact absurd h hm
    · constructor
      · rw [list_captions_nonzero url rc lines err hrc hv]
        exact ⟨fun _ => Or.inr ⟨rc, lines, err, rfl, hrc⟩, fun _ => rfl⟩
      · intro rc2 lines2 err2 heq hz
        injection heq with h1 _ _
        exact absurd (h1 ▸ hz) hrc

/-- Witness for C3 at a concrete valid URL and a timeout outcome. -/
theorem C3_witness :
    list_captions url0 true ToolOutcome.timeout = .error .youTubeError ↔
      (ToolOutcome.timeout = .timeout ∨
        ∃ rc lines err, ToolOutcome.timeout = .ran rc lines err ∧ rc ≠ 0) :=
  (C3_amended url0 .timeout (by decide)).1

/-! ### Claim C5: staleness of the video-info cache

`(now - cached_time).days < 7` floors the difference, so a document exactly
7 days old (not "more than 7 days") is already refetched, and a parsable
document without a usable `cached_at` is refetched as well. -/

/-- The id of `url0`. -/
def vid0 : List Char := "dQw4w9WgXcQ".toList

theorem fdiv_day_lt (d : Int) : Int.fdiv d 86400 < 7 ↔ d < 604800 := by
  rw [Int.fdiv_eq_ediv _ (by norm_num : (0 : Int) ≤ 86400)]
  omega

/-- Counterexample to C5: a document whose `cached_at` is exactly 7 days old
is not "more than 7 days before now", yet the code refetches (here surfacing
the fetch branch's timeout) instead of returning it as-is. -/
theorem C5_counterexample :
    specStaleClaim (.docStamp 0) 604800 = false ∧
    cacheFresh (.docStamp 0) 604800 = false ∧
    get_video_info url0 true (.docStamp 0) 604800 .timeout = .failed .youTubeError ∧
    (InfoResult.failed .youTubeError) ≠ InfoResult.fromCache := by
  exact ⟨by decide, by decide, by rfl, by decide⟩

/-- Claim C5 as amended: the cached document is returned as-is exactly when
it parses with a `cached_at` timestamp less than 7 whole days (604800 s)
before now; so 8 days old triggers a fresh fetch and 1 day old is returned
as-is, but so does a document exactly 7 days old or one without a usable
`cached_at`. -/
theorem C5_amended (url vid : List Char) (read : CacheRead) (now : Int)
    (outcome : InfoOutcome) (hv : validate_youtube_url url = true)
    (he : extract_video_id url = some vid) :
    (get_video_info url true read now outcome = .fromCache ↔
      ∃ t, read = .docStamp t ∧ now - t < 7 * 86400) ∧
    (∀ (t : Int) (out2 : InfoOutcome),
      get_video_info url true (.docStamp t) (t + 8 * 86400) out2 ≠ .fromCache) ∧
    (∀ (t : Int) (out2 : InfoOutcome),
      get_video_info url true (.docStamp t) (t + 86400) out2 = .fromCache) := by
  have hchar : ∀ (read2 : CacheRead) (now2 : Int) (out2 : InfoOutcome),
      get_video_info url true read2 now2 out2 = .fromCache ↔
        cacheFresh read2 now2 = true := by
    intro read2 now2 out2
    simp only [get_video_info, hv, he]
    by_cases hf : cacheFresh read2 now2 = true
    · simp [hf]
    · simp only [Bool.true_eq_false, if_false, if_neg hf]
      constructor
      · intro h
        exfalso
        cases out2 with
        | timeout => cases h
        | ran rc lines err =>
          dsimp only at h
          by_cases hrc : rc = 0
          · subst hrc
            rw [if_neg (by norm_num : ¬ ((0 : Int) ≠ 0))] at h
            by_cases hlen : lines.length < 8
            · rw [if_pos hlen] at h
              cases h
            · rw [if_neg hlen] at h
              cases hb : buildInfo vid url now2 lines with
              | none =>
                rw [hb] at h
                cases h
              | some doc =>
                rw [hb] at h
                cases h
          · rw [if_pos hrc] at h
            cases h
      · intro h
        exact absurd h hf
  refine ⟨?_, ?_, ?_⟩
  · rw [hchar read now outcome]
    cases read with
    | docStamp t =>
      simp only [cacheFresh, decide_eq_true_eq, fdiv_day_lt]
      constructor
      · intro h
        exact ⟨t, rfl, by omega⟩
      · rintro ⟨t2, heq, hlt⟩
        injection heq with h2
        omega
    | absent => simp [cacheFresh]
    | unparsable => simp [cacheFresh]
    | docNoStamp => simp [cacheFresh]
    | docBadStamp => simp [cacheFresh]
  · intro t out2 h
    rw [hchar _ _ out2] at h
    simp only [cacheFresh, decide_eq_true_eq, fdiv_day_lt] at h
    omega
  · intro t out2
    rw [hchar _ _ out2]
    simp only [cacheFresh, decide_eq_true_eq, fdiv_day_lt]
    omega

/-- Witness for C5 at a concrete valid URL and a fresh document. -/
theorem C5_witness :
    get_video_info url0 true (.docStamp 0) 0 .timeout = .fromCache ↔
      ∃ t, CacheRead.docStamp 0 = .docStamp t ∧ (0 : Int) - t < 7 * 86400 :=
  (C5_amended url0 vid0 (.docStamp 0) 0 .timeout (by decide) (by decide)).1

/-! ### Claim C6: the VTT cache short-circuit -/

/-- Claim C6: when the canonical VTT file exists, `download_vtt` returns
that path, and the result does not depend on the download outcome at all —
no subprocess runs and no freshness information is even consulted. -/
theorem C6_vtt_cache_short_circuit (url lang base vid : List Char)
    (out out2 : DlOutcome) (hv : validate_youtube_url url = true)
    (he : extract_video_id url = some vid) :
    download_vtt url lang base true true out = .ok (vttPath base vid lang) ∧
    download_vtt url lang base true true out = download_vtt url lang base true true out2 := by
  have hval : ∀ o : DlOutcome, download_vtt url lang base true true o
      = .ok (vttPath base vid lang) := by
    intro o
    simp [download_vtt, hv, he]
  exact ⟨hval out, (hval out).trans (hval out2).symm⟩

/-- Witness for C6 at a concrete URL, language and cache directory. -/
theorem C6_witness :
    download_vtt url0 "en".toList "/tmp/c".toList true true .timeout
      = .ok (vttPath "/tmp/c".toList vid0 "en".toList) :=
  (C6_vtt_cache_short_circuit url0 "en".toList "/tmp/c".toList vid0 .timeout
    (.ran 0 [] true false) (by decide) (by decide)).1

/-! ### Claims C7 and C8: defaults and the stored duration

Shared inversion: a successful fetch means `buildInfo` produced exactly the
returned document. -/

theorem get_fetched_buildInfo (url vid : List Char) (read : CacheRead) (now rc : Int)
    (lines : List OutLine) (err : List Char) (d : VDoc)
    (hv : validate_youtube_url url = true) (he : extract_video_id url = some vid)
    (hres : get_video_info url true read now (.ran rc lines err) = .fetched d) :
    buildInfo vid url now lines = some d := by
  simp only [get_video_info, hv, he] at hres
  rw [if_neg (by decide : ¬ (true = false)), if_neg (by decide : ¬ (true = false))] at hres
  by_cases hf : cacheFresh read now = true
  · rw [if_pos hf] at hres
    cases hres
  · rw [if_neg hf] at hres
    by_cases hrc : rc = 0
    · subst hrc
      rw [if_neg (by norm_num : ¬ ((0 : Int) ≠ 0))] at hres
      by_cases hlen : lines.length < 8
      · rw [if_pos hlen] at hres
        cases hres
      · rw [if_neg hlen] at hres
        cases hb : buildInfo vid url now lines with
        | none =>
          rw [hb] at hres
          cases hres
        | some doc =>
          rw [hb] at hres
          injection hres with hd
          rw [hd]
    · rw [if_pos hrc] at hres
      cases hres

theorem buildInfo_some_split (vid url : List Char) (now : Int) (lines : List OutLine)
    (d : VDoc) (hb : buildInfo vid url now lines = some d) :
    ∃ t i u dd ud de vc lc,
      loadField (lines.getD 0 .malformed) (.str "Unknown Title".toList) = some t ∧
      loadField (lines.getD 1 .malformed) (.str vid) = some i ∧
      loadField (lines.getD 2 .malformed) (.str "Unknown".toList) = some u ∧
      loadField (lines.getD 3 .malformed) (.int 0) = some dd ∧
      loadField (lines.getD 4 .malformed) .null = some ud ∧
      loadField (lines.getD 5 .malformed) (.str []) = some de ∧
      loadField (lines.getD 6 .malformed) (.int 0) = some vc ∧
      loadField (lines.getD 7 .malformed) (.int 0) = some lc ∧
      d = [("title".toList, t), ("id".toList, i), ("uploader".toList, u),
        ("duration".toList, dd), ("upload_date".toList, ud), ("description".toList, de),
        ("view_count".toList, vc), ("like_count".toList, lc),
        ("url".toList, .str url), ("cached_at".toList, .time now)] := by
  unfold buildInfo at hb
  split at hb
  next t i u dd ud de vc lc ht hi hu hdd hud hde hvc hlc =>
    exact ⟨t, i, u, dd, ud, de, vc, lc, ht, hi, hu, hdd, hud, hde, hvc, hlc,
      (Option.some.inj hb).symm⟩
  next => cases hb

/-- Counterexample to C7: with every tool field equal to the null sentinel,
the stored document has no `chapters` key at all (the claim's "chapters
becomes none" would require `some JVal.null`): the code never requests or
stores chapters. -/
theorem C7_counterexample :
    get_video_info url0 true .absent 0 (.ran 0 (List.replicate 8 .nullLit) [])
        = .fetched
          [("title".toList, .str "Unknown Title".toList), ("id".toList, .str vid0),
           ("uploader".toList, .str "Unknown".toList), ("duration".toList, .int 0),
           ("upload_date".toList, .null), ("description".toList, .str []),
           ("view_count".toList, .int 0), ("like_count".toList, .int 0),
           ("url".toList, .str url0), ("cached_at".toList, .time 0)] ∧
    List.lookup "chapters".toList
        [(("title".toList : List Char), JVal.str "Unknown Title".toList),
         ("id".toList, .str vid0),
         ("uploader".toList, .str "Unknown".toList), ("duration".toList, .int 0),
         ("upload_date".toList, .null), ("description".toList, .str []),
         ("view_count".toList, .int 0), ("like_count".toList, .int 0),
         ("url".toList, .str url0), ("cached_at".toList, .time 0)] = none := by
  exact ⟨by rfl, by rfl⟩

/-- Claim C7 as amended: on a cache miss with a successful fetch, every
null-sentinel field is replaced by its default (title → "Unknown Title",
uploader → "Unknown", duration/view_count/like_count → 0), `cached_at` is
stamped with the current time, and the persisted document (which is exactly
the returned one) has no chapters entry at all. -/
theorem C7_amended (url vid : List Char) (read : CacheRead) (now rc : Int)
    (lines : List OutLine) (err : List Char) (d : VDoc)
    (hv : validate_youtube_url url = true) (he : extract_video_id url = some vid)
    (hres : get_video_info url true read now (.ran rc lines err) = .fetched d) :
    (lines.getD 0 .malformed = .nullLit →
      List.lookup "title".toList d = some (.str "Unknown Title".toList)) ∧
    (lines.getD 2 .malformed = .nullLit →
      List.lookup "uploader".toList d = some (.str "Unknown".toList)) ∧
    (lines.getD 3 .malformed = .nullLit →
      List.lookup "duration".toList d = some (.int 0)) ∧
    (lines.getD 6 .malformed = .nullLit →
      List.lookup "view_count".toList d = some (.int 0)) ∧
    (lines.getD 7 .malformed = .nullLit →
      List.lookup "like_count".toList d = some (.int 0)) ∧
    List.lookup "cached_at".toList d = some (.time now) ∧
    List.lookup "chapters".toList d = none := by
  obtain ⟨t, i, u, dd, ud, de, vc, lc, ht, hi, hu, hdd, hud, hde, hvc, hlc, hd⟩ :=
    buildInfo_some_split vid url now lines d
      (get_fetched_buildInfo url vid read now rc lines err d hv he hres)
  subst hd
  refine ⟨?_, ?_, ?_, ?_, ?_, by rfl, by rfl⟩
  · intro h0
    rw [h0] at ht
    simp only [loadField] at ht
    injection ht with h2
    subst h2
    rfl
  · intro h0
    rw [h0] at hu
    simp only [loadField] at hu
    injection hu with h2
    subst h2
    rfl
  · intro h0
    rw [h0] at hdd
    simp only [loadField] at hdd
    injection hdd with h2
    subst h2
    rfl
  · intro h0
    rw [h0] at hvc
    simp only [loadField] at hvc
    injection hvc with h2
    subst h2
    rfl
  · intro h0
    rw [h0] at hlc
    simp only [loadField] at hlc
    injection hlc with h2
    subst h2
    rfl

/-- Witness for C7 at the all-null concrete input. -/
theorem C7_witness :
    List.lookup "cached_at".toList
        [(("title".toList : List Char), JVal.str "Unknown Title".toList),
         ("id".toList, .str vid0),
         ("uploader".toList, .str "Unknown".toList), ("duration".toList, .int 0),
         ("upload_date".toList, .null), ("description".toList, .str []),
         ("view_count".toList, .int 0), ("like_count".toList, .int 0),
         ("url".toList, .str url0), ("cached_at".toList, .time 0)]
      = some (.time 0) :=
  (C7_amended url0 vid0 .absent 0 0 (List.replicate 8 .nullLit) [] _
    (by decide) (by decide) (by rfl)).2.2.2.2.2.1

/-! ### Claim C8: the stored duration -/

/-- Stdout lines whose duration field decodes to a negative integer. -/
def negLines : List OutLine :=
  [.nullLit, .nullLit, .nullLit, .val (.int (-5)), .nullLit, .nullLit, .nullLit, .nullLit]

/-- Counterexample to C8: a tool output whose duration field decodes to `-5`
is accepted, and the stored document's duration is `-5`: negative durations
are stored as-is, only the null sentinel is defaulted. -/
theorem C8_counterexample :
    get_video_info url0 true .absent 0 (.ran 0 negLines [])
        = .fetched
          [("title".toList, .str "Unknown Title".toList), ("id".toList, .str vid0),
           ("uploader".toList, .str "Unknown".toList), ("duration".toList, .int (-5)),
           ("upload_date".toList, .null), ("description".toList, .str []),
           ("view_count".toList, .int 0), ("like_count".toList, .int 0),
           ("url".toList, .str url0), ("cached_at".toList, .time 0)] ∧
    List.lookup "duration".toList
        [(("title".toList : List Char), JVal.str "Unknown Title".toList),
         ("id".toList, .str vid0),
         ("uploader".toList, .str "Unknown".toList), ("duration".toList, .int (-5)),
         ("upload_date".toList, .null), ("description".toList, .str []),
         ("view_count".toList, .int 0), ("like_count".toList, .int 0),
         ("url".toList, .str url0), ("cached_at".toList, .time 0)]
      = some (.int (-5)) ∧
    (-5 : Int) < 0 := by
  exact ⟨by rfl, by rfl, by decide⟩

/-- Claim C8 as amended: every accepted tool output stores a duration — the
null sentinel becomes the integer 0, so a duration is never missing — but a
decoded duration value is stored unchanged, so a negative integer from the
tool is stored negative. -/
theorem C8_amended (url vid : List Char) (read : CacheRead) (now rc : Int)
    (lines : List OutLine) (err : List Char) (d : VDoc)
    (hv : validate_youtube_url url = true) (he : extract_video_id url = some vid)
    (hres : get_video_info url true read now (.ran rc lines err) = .fetched d) :
    ∃ v, List.lookup "duration".toList d = some v ∧
      (lines.getD 3 .malformed = .nullLit → v = .int 0) ∧
      (∀ w, lines.getD 3 .malformed = .val w → v = w) := by
  obtain ⟨t, i, u, dd, ud, de, vc, lc, ht, hi, hu, hdd, hud, hde, hvc, hlc, hd⟩ :=
    buildInfo_some_split vid url now lines d
      (get_fetched_buildInfo url vid read now rc lines err d hv he hres)
  subst hd
  refine ⟨dd, by rfl, ?_, ?_⟩
  · intro h3
    rw [h3] at hdd
    simp only [loadField] at hdd
    exact (Option.some.inj hdd).symm
  · intro w h3
    rw [h3] at hdd
    simp only [loadField] at hdd
    exact (Option.some.inj hdd).symm

/-- Witness for C8 at the concrete negative-duration input. -/
theorem C8_witness :
    List.lookup "duration".toList
        [(("title".toList : List Char), JVal.str "Unknown Title".toList),
         ("id".toList, .str vid0),
         ("uploader".toList, .str "Unknown".toList), ("duration".toList, .int (-5)),
         ("upload_date".toList, .null), ("description".toList, .str []),
         ("view_count".toList, .int 0), ("like_count".toList, .int 0),
         ("url".toList, .str url0), ("cached_at".toList, .time 0)]
      = some (.int (-5)) := by
  obtain ⟨v, hl, _, hw⟩ :=
    C8_amended url0 vid0 .absent 0 0 negLines [] _ (by decide) (by decide) (by rfl)
  rw [hw (.int (-5)) (by rfl)] at hl
  exact hl

/-! ### Claim C10: whitespace invariance and shape of extracted ids -/

theorem dropWhile_append_all {p : Char → Bool} {a : List Char} (b : List Char)
    (h : a.all p = true) : (a ++ b).dropWhile p = b.dropWhile p := by
  induction a with
  | nil => rfl
  | cons x xs ih =>
    simp only [List.all_cons, Bool.and_eq_true] at h
    simp only [List.cons_append, List.dropWhile_cons, h.1, if_true]
    exact ih h.2

theorem dropWhile_all_nil {p : Char → Bool} {a : List Char} (h : a.all p = true) :
    a.dropWhile p = [] := by
  rw [List.dropWhile_eq_nil_iff]
  exact List.all_eq_true.mp h

theorem pyStrip_pad (s ws ws2 : List Char) (h1 : ws.all isPySpace = true)
    (h2 : ws2.all isPySpace = true) : pyStrip (ws ++ s ++ ws2) = pyStrip s := by
  unfold pyStrip
  rw [List.append_assoc, dropWhile_append_all _ h1, List.dropWhile_append]
  by_cases hd : (s.dropWhile isPySpace).isEmpty = true
  · rw [if_pos hd, dropWhile_all_nil h2, List.isEmpty_iff.mp hd]
  · rw [if_neg hd, List.reverse_append,
      dropWhile_append_all _ (by rw [List.all_reverse]; exact h2)]

/-- Whitespace padding does not change the extracted id: the code strips the
input before matching. -/
theorem extract_pad (s ws ws2 : List Char) (h1 : ws.all isPySpace = true)
    (h2 : ws2.all isPySpace = true) :
    extract_video_id (ws ++ s ++ ws2) = extract_video_id s := by
  unfold extract_video_id
  by_cases hs : s = []
  · subst hs
    rw [if_pos rfl]
    by_cases h0 : ws ++ [] ++ ws2 = []
    · rw [if_pos h0]
    · rw [if_neg h0, pyStrip_pad [] ws ws2 h1 h2]
      rfl
  · have hne : ws ++ s ++ ws2 ≠ [] := fun h =>
      hs (List.append_eq_nil.mp (List.append_eq_nil.mp h).1).2
    rw [if_neg hne, if_neg hs, pyStrip_pad s ws ws2 h1 h2]

theorem takeN_shape {p : Char → Bool} :
    ∀ {n : Nat} {s t r : List Char}, takeN n p s = some (t, r) →
      t.length = n ∧ t.all p = true := by
  intro n
  induction n with
  | zero =>
    intro s t r h
    simp only [takeN, Option.some.injEq] at h
    cases h
    exact ⟨rfl, rfl⟩
  | succ n ih =>
    intro s t r h
    cases s with
    | nil =>
      rw [show takeN (n + 1) p ([] : List Char) = none from rfl] at h
      cases h
    | cons c cs =>
      simp only [takeN] at h
      by_cases hc : p c = true
      · rw [if_pos hc] at h
        obtain ⟨pr, hk, hv⟩ := Option.map_eq_some'.mp h
        cases hv
        obtain ⟨hl, ha⟩ := ih hk
        exact ⟨by simp [hl], by simp [List.all_cons, hc, ha]⟩
      · rw [if_neg hc] at h
        cases h

/-- The id shape an extracted value always has. -/
def GoodId (v : List Char) : Prop := v.length = 11 ∧ v.all isIdChar = true

theorem searchWith_shape {attempt : List Char → Option (List Char)}
    (hA : ∀ t v, attempt t = some v → GoodId v) :
    ∀ {s v}, searchWith attempt s = some v → GoodId v := by
  intro s
  induction s with
  | nil => intro v h; exact hA [] v h
  | cons c cs ih =>
    intro v h
    simp only [searchWith] at h
    cases ha : attempt (c :: cs) with
    | some r =>
      rw [ha] at h
      injection h with h2
      exact h2 ▸ hA _ _ ha
    | none =>
      rw [ha] at h
      exact ih h

theorem p1At_shape (t v : List Char) (h : p1At t = some v) : GoodId v := by
  unfold p1At at h
  obtain ⟨r, _, h⟩ := Option.bind_eq_some.mp h
  obtain ⟨pr, hk, hv⟩ := Option.map_eq_some'.mp h
  exact hv ▸ takeN_shape hk

theorem p2At_shape (t v : List Char) (h : p2At t = some v) : GoodId v := by
  cases t with
  | nil => cases h
  | cons c cs =>
    simp only [p2At] at h
    split at h
    · obtain ⟨r, _, h⟩ := Option.bind_eq_some.mp h
      obtain ⟨pr, hk, h⟩ := Option.bind_eq_some.mp h
      split at h
      · injection h with h2
        exact h2 ▸ takeN_shape hk
      · cases h
    · cases h

theorem p3At_shape (t v : List Char) (h : p3At t = some v) : GoodId v := by
  unfold p3At at h
  obtain ⟨r, _, h⟩ := Option.bind_eq_some.mp h
  obtain ⟨pr, hk, h⟩ := Option.bind_eq_some.mp h
  split at h
  · injection h with h2
    exact h2 ▸ takeN_shape hk
  · cases h

theorem p4At_shape (t v : List Char) (h : p4At t = some v) : GoodId v := by
  unfold p4At at h
  obtain ⟨r, _, h⟩ := Option.bind_eq_some.mp h
  obtain ⟨pr, hk, h⟩ := Option.bind_eq_some.mp h
  split at h
  · injection h with h2
    exact h2 ▸ takeN_shape hk
  · cases h

theorem p5At_shape (t v : List Char) (h : p5At t = some v) : GoodId v := by
  unfold p5At at h
  obtain ⟨r, _, h⟩ := Option.bind_eq_some.mp h
  obtain ⟨pr, hk, h⟩ := Option.bind_eq_some.mp h
  split at h
  · injection h with h2
    exact h2 ▸ takeN_shape hk
  · cases h

theorem p6Tail_shape (t v : List Char) (h : p6Tail t = some v) : GoodId v := by
  unfold p6Tail at h
  obtain ⟨r1, _, h⟩ := Option.bind_eq_some.mp h
  obtain ⟨r2, _, h⟩ := Option.bind_eq_some.mp h
  obtain ⟨r3, _, h⟩ := Option.bind_eq_some.mp h
  obtain ⟨r4, _, h⟩ := Option.bind_eq_some.mp h
  obtain ⟨r5, _, h⟩ := Option.bind_eq_some.mp h
  obtain ⟨r6, _, h⟩ := Option.bind_eq_some.mp h
  obtain ⟨pr, hk, hv⟩ := Option.map_eq_some'.mp h
  exact hv ▸ takeN_shape hk

theorem p6FindLast_shape : ∀ {s v : List Char}, p6FindLast s = some v → GoodId v := by
  intro s
  induction s with
  | nil => intro v h; cases h
  | cons c cs ih =>
    intro v h
    simp only [p6FindLast] at h
    cases hr : (if c = '\n' then none else p6FindLast cs) with
    | some r =>
      rw [hr] at h
      injection h with h2
      subst h2
      split at hr
      · cases hr
      · exact ih hr
    | none =>
      rw [hr] at h
      exact p6Tail_shape _ _ h

theorem p6At_shape (t v : List Char) (h : p6At t = some v) : GoodId v := by
  unfold p6At at h
  obtain ⟨r, _, h⟩ := Option.bind_eq_some.mp h
  exact p6FindLast_shape h

theorem extractCore_shape (u v : List Char) (h : extractCore u = some v) : GoodId v := by
  unfold extractCore at h
  cases h1 : searchWith p1At u with
  | some r =>
    rw [h1] at h
    injection h with h2
    exact h2 ▸ searchWith_shape p1At_shape h1
  | none =>
    rw [h1] at h
    cases h2 : searchWith p2At u with
    | some r =>
      rw [h2] at h
      injection h with h3
      exact h3 ▸ searchWith_shape p2At_shape h2
    | none =>
      rw [h2] at h
      cases h3 : searchWith p3At u with
      | some r =>
        rw [h3] at h
        injection h with h4
        exact h4 ▸ searchWith_shape p3At_shape h3
      | none =>
        rw [h3] at h
        cases h4 : searchWith p4At u with
        | some r =>
          rw [h4] at h
          injection h with h5
          exact h5 ▸ searchWith_shape p4At_shape h4
        | none =>
          rw [h4] at h
          cases h5 : searchWith p5At u with
          | some r =>
            rw [h5] at h
            injection h with h6
            exact h6 ▸ searchWith_shape p5At_shape h5
          | none =>
            rw [h5] at h
            exact searchWith_shape p6At_shape h

theorem extract_shape (s v : List Char) (h : extract_video_id s = some v) : GoodId v := by
  unfold extract_video_id at h
  by_cases hs : s = []
  · rw [if_pos hs] at h
    cases h
  · rw [if_neg hs] at h
    exact extractCore_shape _ _ h

/-- Claim C10: `extract_video_id` is invariant under surrounding whitespace,
and every extracted id is exactly 11 characters from `[A-Za-z0-9_-]`. -/
theorem C10_extract_ws_invariant_and_shape (s ws ws2 : List Char) :
    (ws.all isPySpace = true → ws2.all isPySpace = true →
      extract_video_id (ws ++ s ++ ws2) = extract_video_id s) ∧
    (∀ v, extract_video_id s = some v → v.length = 11 ∧ v.all isIdChar = true) :=
  ⟨fun h1 h2 => extract_pad s ws ws2 h1 h2, fun v h => extract_shape s v h⟩

/-- Witness for C10 at a concrete padded URL. -/
theorem C10_witness :
    extract_video_id ("  ".toList ++ url0 ++ "\n".toList) = extract_video_id url0 ∧
    extract_video_id url0 = some vid0 ∧
    vid0.length = 11 ∧ vid0.all isIdChar = true := by
  have h := C10_extract_ws_invariant_and_shape url0 "  ".toList "\n".toList
  exact ⟨h.1 (by decide) (by decide), by decide, h.2 vid0 (by decide)⟩

end Clipdrop
